import Mathlib

/-!
Verification of the nexus-agent request-turn pipeline against its
natural-language specification.  The Go sources are shallowly embedded:
pure functions become Lean functions, stateful repository code becomes
explicit state passing, Go `float64` money values become `ℚ`, machine
integers become `Int`/`Nat`, and fallible code returns `Option`/`Except`
(a `none` result marks a run-time panic such as a nil-pointer
dereference or an out-of-range index).
-/

namespace NexusAgent

/-! Section: LLM provider inference and config defaulting
    (internal/domain/service: LLMService.inferProviderFromModel,
    getProviderFromType, getDefaultModelForProvider, GetDefaultConfig,
    getEffectiveLLMConfig, ValidateConfig).  Go's `model.LLMProvider`
    is a string type, so providers are embedded as `String`. -/

/-- Embeds `model.LLMConfig`, restricted to the fields the claims touch
(credentials `APIKey`/`BaseURL` carry no logic relevant to any claim). -/
structure LLMConfig where
  provider : String
  model : String
  temperature : ℚ
  maxTokens : Int
deriving DecidableEq, Repr

/-- Embeds `LLMService.inferProviderFromModel`: a switch over exact model names
(`modelName == "..."` disjunctions), defaulting to openai. -/
def inferProviderFromModel (m : String) : String :=
  if m = "deepseek-chat" ∨ m = "deepseek-reasoner" then "deepseek"
  else if m = "claude-3-opus-20240229" ∨ m = "claude-3-sonnet-20240229" ∨
      m = "claude-3-haiku-20240307" ∨ m = "claude-3-5-sonnet-20241022" then "anthropic"
  else if m = "qwen-turbo" ∨ m = "qwen-plus" ∨ m = "qwen-max" ∨
      m = "qwen-max-longcontext" then "qwen"
  else if m = "ernie-bot-turbo" ∨ m = "ernie-bot" ∨ m = "ernie-bot-4" ∨
      m = "ernie-speed" then "ernie"
  else if m = "glm-4" ∨ m = "glm-4v" ∨ m = "glm-3-turbo" then "chatglm"
  else "openai"

/-- Embeds `LLMService.getProviderFromType`: string provider type to the provider
constant, with openai as the fallback. -/
def getProviderFromType (t : String) : String :=
  if t = "openai" then "openai"
  else if t = "deepseek" then "deepseek"
  else if t = "anthropic" then "anthropic"
  else if t = "qwen" then "qwen"
  else if t = "ernie" then "ernie"
  else if t = "chatglm" then "chatglm"
  else "openai"

/-- Embeds `LLMService.getDefaultModelForProvider` (the openai and default arms
return the configured `DefaultModel`). -/
def getDefaultModelForProvider (defaultModel t : String) : String :=
  if t = "openai" then defaultModel
  else if t = "deepseek" then "deepseek-chat"
  else if t = "anthropic" then "claude-3-sonnet-20240229"
  else if t = "qwen" then "qwen-turbo"
  else if t = "ernie" then "ernie-bot-turbo"
  else if t = "chatglm" then "glm-4"
  else defaultModel

/-- Embeds `LLMService.GetDefaultConfig`: provider/model from the configured
defaults, temperature 0.7, maxTokens 2000 (credentials omitted). -/
def getDefaultConfig (defaultProvider defaultModel : String) : LLMConfig :=
  { provider := getProviderFromType defaultProvider
    model := getDefaultModelForProvider defaultModel defaultProvider
    temperature := 7/10
    maxTokens := 2000 }

/-- Embeds `LLMService.getEffectiveLLMConfig`: start from the default config,
override each field the caller supplied (non-empty / positive), then
infer the provider from the model name when still empty.  The API-key
refresh steps are omitted (no claim touches credentials). -/
def getEffectiveLLMConfig (defaultProvider defaultModel : String)
    (userConfig : Option LLMConfig) : LLMConfig :=
  let base := getDefaultConfig defaultProvider defaultModel
  let c1 :=
    match userConfig with
    | none => base
    | some u =>
      let ca := if u.provider ≠ "" then { base with provider := u.provider } else base
      let cb := if u.model ≠ "" then { ca with model := u.model } else ca
      let cc := if u.temperature > 0 then { cb with temperature := u.temperature } else cb
      if u.maxTokens > 0 then { cc with maxTokens := u.maxTokens } else cc
  if c1.provider = "" then { c1 with provider := inferProviderFromModel c1.model }
  else c1

/-- Embeds `LLMService.ValidateConfig`: returns the first failing rule's message,
`none` when the config is valid. -/
def validateConfig (c : LLMConfig) : Option String :=
  if c.provider = "" then some "provider is required"
  else if c.model = "" then some "model is required"
  else if c.temperature < 0 ∨ c.temperature > 2 then
    some "temperature must be between 0 and 2"
  else if c.maxTokens ≤ 0 ∨ c.maxTokens > 32000 then
    some "max_tokens must be between 1 and 32000"
  else none

/-! Section: The Chat handler's config branch and pre_llm snapshot state
    (interface/handler LLMHandler.Chat). -/

/-- The config-bearing fields of `dto.ChatRequest`. -/
structure ChatRequestCfg where
  provider : String
  model : String
  temperature : ℚ
  maxTokens : Int
deriving DecidableEq, Repr

/-- The handler's `llmConfig` construction: it builds a config only when
the request carries a provider or a model; otherwise `llmConfig` stays
the nil pointer (`none`). -/
def buildRequestLLMConfig (req : ChatRequestCfg) : Option LLMConfig :=
  if req.provider ≠ "" ∨ req.model ≠ "" then
    some { provider := req.provider, model := req.model
           temperature := req.temperature, maxTokens := req.maxTokens }
  else none

/-- The `stateData` map built for the `pre_llm` snapshot. -/
structure PreLLMState where
  messagesCount : Nat
  model : String
  provider : String
deriving DecidableEq, Repr

/-- Building the `pre_llm` snapshot state in `Chat`/`ChatStream`: the Go
code reads `llmConfig.Model` and `llmConfig.Provider` unconditionally, so
with an absent config (`nil` pointer) the handler panics — modelled as
`none`. -/
def buildPreLLMState (cfg : Option LLMConfig) (messagesCount : Nat) :
    Option PreLLMState :=
  match cfg with
  | some c => some { messagesCount := messagesCount, model := c.model, provider := c.provider }
  | none => none

/-- C5: for a chat request that omits both provider and model, the handler
keeps `llmConfig = none`, and building the `pre_llm` snapshot state then
dereferences the absent config — the omitted-config branch crashes the
handler instead of proceeding with the defaults (which the service layer
would only apply further down, in `getEffectiveLLMConfig`: temperature
0.7, maxTokens 2000). -/
theorem chat_omitted_config_crash :
    buildRequestLLMConfig { provider := "", model := "", temperature := 0, maxTokens := 0 } = none ∧
    buildPreLLMState
      (buildRequestLLMConfig { provider := "", model := "", temperature := 0, maxTokens := 0 }) 1 = none ∧
    (getEffectiveLLMConfig "openai" "gpt-3.5-turbo" none).temperature = 7/10 ∧
    (getEffectiveLLMConfig "openai" "gpt-3.5-turbo" none).maxTokens = 2000 := by
  exact ⟨rfl, rfl, rfl, rfl⟩

/-- C6 counterexample: `"claude-3-opus"` matches the claimed prefix
pattern `claude-3-*`, yet the code maps it to openai, not anthropic
(the switch matches four exact claude model names only). -/
theorem provider_inference_cx :
    List.isPrefixOf "claude-3-".toList "claude-3-opus".toList = true ∧
    inferProviderFromModel "claude-3-opus" = "openai" ∧
    inferProviderFromModel "claude-3-opus" ≠ "anthropic" := by
  refine ⟨by decide, ?_, ?_⟩ <;> simp [inferProviderFromModel]

/-- All model names the inference switch mentions. -/
def inferTableNames : List String :=
  ["deepseek-chat", "deepseek-reasoner",
   "claude-3-opus-20240229", "claude-3-sonnet-20240229",
   "claude-3-haiku-20240307", "claude-3-5-sonnet-20241022",
   "qwen-turbo", "qwen-plus", "qwen-max", "qwen-max-longcontext",
   "ernie-bot-turbo", "ernie-bot", "ernie-bot-4", "ernie-speed",
   "glm-4", "glm-4v", "glm-3-turbo"]

/-- C6 amended: provider inference matches on exact model names, not
prefix patterns: exactly the four listed claude releases map to
anthropic; the deepseek, qwen, ernie and glm names map as claimed; and
every model name outside the table — including other `claude-3-*`
names — maps to openai. -/
theorem provider_inference_amended :
    inferProviderFromModel "deepseek-chat" = "deepseek" ∧
    inferProviderFromModel "deepseek-reasoner" = "deepseek" ∧
    inferProviderFromModel "claude-3-opus-20240229" = "anthropic" ∧
    inferProviderFromModel "claude-3-sonnet-20240229" = "anthropic" ∧
    inferProviderFromModel "claude-3-haiku-20240307" = "anthropic" ∧
    inferProviderFromModel "claude-3-5-sonnet-20241022" = "anthropic" ∧
    inferProviderFromModel "qwen-turbo" = "qwen" ∧
    inferProviderFromModel "qwen-plus" = "qwen" ∧
    inferProviderFromModel "qwen-max" = "qwen" ∧
    inferProviderFromModel "qwen-max-longcontext" = "qwen" ∧
    inferProviderFromModel "ernie-bot" = "ernie" ∧
    inferProviderFromModel "ernie-bot-turbo" = "ernie" ∧
    inferProviderFromModel "ernie-bot-4" = "ernie" ∧
    inferProviderFromModel "ernie-speed" = "ernie" ∧
    inferProviderFromModel "glm-4" = "chatglm" ∧
    inferProviderFromModel "glm-4v" = "chatglm" ∧
    inferProviderFromModel "glm-3-turbo" = "chatglm" ∧
    (∀ m : String, m ∉ inferTableNames → inferProviderFromModel m = "openai") := by
  repeat' apply And.intro
  all_goals first
    | (simp [inferProviderFromModel]; done)
    | (intro m hm
       simp only [inferTableNames, List.mem_cons, List.not_mem_nil, or_false] at hm
       push_neg at hm
       simp only [inferProviderFromModel]
       split_ifs with h1 h2 h3 h4 h5 <;> first
         | rfl
         | (rcases h1 with rfl | rfl <;> simp_all)
         | (rcases h2 with rfl | rfl | rfl | rfl <;> simp_all)
         | (rcases h3 with rfl | rfl | rfl | rfl <;> simp_all)
         | (rcases h4 with rfl | rfl | rfl | rfl <;> simp_all)
         | (rcases h5 with rfl | rfl | rfl <;> simp_all))

/-- Witness for C6: a model name outside the table really evaluates to
openai through the amended theorem. -/
theorem provider_inference_witness :
    inferProviderFromModel "gpt-4" = "openai" :=
  provider_inference_amended.2.2.2.2.2.2.2.2.2.2.2.2.2.2.2.2.2 "gpt-4" (by decide)

/-! Section: Session budget
    (model.Budget, sessionRepository.UpdateBudget,
    SessionService.CheckBudget, and the budget step of the turn
    pipeline in LLMHandler.Chat/ChatStream). -/

/-- Embeds `model.Budget`: token and cost quotas with used counters. -/
structure Budget where
  totalTokens : Int
  usedTokens : Int
  totalCost : ℚ
  usedCost : ℚ
deriving DecidableEq, Repr

/-- Embeds `sessionRepository.UpdateBudget`: one unconditional atomic update
`used += added` on both counters — no quota check of any kind. -/
def updateBudget (b : Budget) (tokensUsed : Int) (costUsed : ℚ) : Budget :=
  { b with usedTokens := b.usedTokens + tokensUsed
           usedCost := b.usedCost + costUsed }

/-- Embeds `SessionService.CheckBudget`: fails when a positive quota would be
crossed by the addition (tokens checked first, then cost). -/
def checkBudget (b : Budget) (additionalTokens : Int) (additionalCost : ℚ) :
    Option String :=
  if b.totalTokens > 0 ∧ b.usedTokens + additionalTokens > b.totalTokens then
    some "token budget exceeded"
  else if b.totalCost > 0 ∧ b.usedCost + additionalCost > b.totalCost then
    some "cost budget exceeded"
  else none

/-- The budget effect of a completed turn in `Chat`/`ChatStream`: the
handlers call `sessionService.UpdateBudget` with the turn's totals and
never call `CheckBudget` first (post-hoc accounting). -/
def turnBudgetEffect (b : Budget) (totalTokens : Int) (totalCost : ℚ) : Budget :=
  updateBudget b totalTokens totalCost

/-- C4 counterexample: a session with `totalTokens = 5 > 0` and a
successful turn accounting 10 tokens ends with `usedTokens = 10 > 5`,
so the invariant `usedTokens ≤ totalTokens` does not survive the turn
pipeline (the spec's own scenario S5). -/
theorem budget_invariant_cx :
    (0 : Int) < (Budget.mk 5 0 1 0).totalTokens ∧
    (turnBudgetEffect (Budget.mk 5 0 1 0) 10 0).usedTokens = 10 ∧
    ¬ (turnBudgetEffect (Budget.mk 5 0 1 0) 10 0).usedTokens ≤
        (turnBudgetEffect (Budget.mk 5 0 1 0) 10 0).totalTokens := by
  refine ⟨by norm_num, rfl, by norm_num [turnBudgetEffect, updateBudget]⟩

/-- C4 amended: `UpdateBudget` adds exactly the given amounts and leaves
the quotas unchanged; the invariant `used ≤ total` is preserved exactly
when the increment passes `CheckBudget` (which rejects any addition that
would cross a positive quota) — but the turn pipeline performs no such
pre-check, so a successful turn can drive the counters past the quota. -/
theorem budget_update_amended (b : Budget) (tk : Int) (c : ℚ) :
    ((updateBudget b tk c).usedTokens = b.usedTokens + tk ∧
     (updateBudget b tk c).usedCost = b.usedCost + c ∧
     (updateBudget b tk c).totalTokens = b.totalTokens ∧
     (updateBudget b tk c).totalCost = b.totalCost) ∧
    (checkBudget b tk c = none → 0 < b.totalTokens →
      (updateBudget b tk c).usedTokens ≤ (updateBudget b tk c).totalTokens) ∧
    (checkBudget b tk c = none → 0 < b.totalCost →
      (updateBudget b tk c).usedCost ≤ (updateBudget b tk c).totalCost) := by
  refine ⟨⟨rfl, rfl, rfl, rfl⟩, ?_, ?_⟩ <;>
    · intro hchk hpos
      simp only [checkBudget] at hchk
      split_ifs at hchk with h1 h2
      push_neg at h1 h2
      simp only [updateBudget]
      first
        | exact h1 hpos
        | exact h2 hpos

/-- Witness for C4 amended: a turn that passes the pre-check keeps the
token counter within quota. -/
theorem budget_update_witness :
    checkBudget (Budget.mk 5 0 1 0) 3 0 = none ∧
    (0 : Int) < 5 ∧
    (updateBudget (Budget.mk 5 0 1 0) 3 0).usedTokens ≤
      (updateBudget (Budget.mk 5 0 1 0) 3 0).totalTokens :=
  ⟨by norm_num [checkBudget], by norm_num,
   (budget_update_amended (Budget.mk 5 0 1 0) 3 0).2.1
     (by norm_num [checkBudget]) (by norm_num)⟩

/-! Section: Trace store and tracer
    (model.ExecutionStep, traceRepository.UpdateStatus/UpdateCost,
    stepRepository.Create/GetByTraceID, TracerImplService.RecordStep /
    getNextSequence / RecordSnapshot / EndTrace).  Timestamps are `Int`;
    the JSON payloads (input/output/snapshot bodies) carry no logic any
    claim depends on and are omitted from the step record. -/

/-- Embeds `model.ExecutionStep`, payload fields omitted. -/
structure ExecStep where
  id : String
  traceId : String
  seq : Int
  stepType : String
  costTokens : Int
  costAPI : ℚ
  latencyMs : Int
  createdAt : Int
  updatedAt : Int
deriving DecidableEq, Repr

/-- The tracer-visible store state: the inserted steps in insertion
order, and the log of `traceRepository.UpdateCost` invocations
`(traceId, tokens, apiCost)`. -/
structure TracerState where
  steps : List ExecStep
  costLog : List (String × Int × ℚ)
deriving DecidableEq, Repr

/-- Embeds `stepRepository.GetByTraceID` restricted to what `getNextSequence`
needs: the steps stored under one trace. -/
def stepsOfTrace (st : TracerState) (t : String) : List ExecStep :=
  st.steps.filter (fun s => s.traceId == t)

/-- Embeds `TracerImplService.getNextSequence`: `len(steps) + 1`. -/
def getNextSequence (st : TracerState) (t : String) : Int :=
  (stepsOfTrace st t).length + 1

/-- The step as `RecordStep` mutates it before insert: fresh id when
empty, timestamps overwritten with now, sequence assigned when zero. -/
def assignedStep (st : TracerState) (freshId : String) (now : Int)
    (s : ExecStep) : ExecStep :=
  { s with id := if s.id = "" then freshId else s.id
           createdAt := now
           updatedAt := now
           seq := if s.seq = 0 then getNextSequence st s.traceId else s.seq }

/-- Embeds `TracerImplService.RecordStep`: assign id, reject empty traceId,
overwrite timestamps, assign sequence when zero, insert, and call
`UpdateCost` when the step declares positive cost. -/
def recordStep (st : TracerState) (freshId : String) (now : Int)
    (s : ExecStep) : Except String TracerState :=
  let s1 := if s.id = "" then { s with id := freshId } else s
  if s1.traceId = "" then .error "traceID is required"
  else
    let s2 := { s1 with createdAt := now, updatedAt := now }
    let s3 := if s2.seq = 0 then { s2 with seq := getNextSequence st s2.traceId } else s2
    let st1 : TracerState := { st with steps := st.steps ++ [s3] }
    if s3.costTokens > 0 ∨ s3.costAPI > 0 then
      .ok { st1 with costLog := st1.costLog ++ [(s3.traceId, s3.costTokens, s3.costAPI)] }
    else
      .ok st1

/-- The auxiliary step `RecordSnapshot` builds: stepType `snapshot`,
timestamps set, and — crucially — the `Sequence` field left at its Go
zero value, bypassing `getNextSequence` entirely. -/
def snapshotStep (freshId : String) (now : Int) (traceId : String) : ExecStep :=
  { id := freshId, traceId := traceId, seq := 0, stepType := "snapshot"
    costTokens := 0, costAPI := 0, latencyMs := 0
    createdAt := now, updatedAt := now }

/-- Embeds `TracerImplService.RecordSnapshot`: reject an empty traceId, then
insert the snapshot step directly through `stepRepo.Create` (no sequence
assignment, no cost accumulation). -/
def recordSnapshot (st : TracerState) (freshId : String) (now : Int)
    (traceId : String) : Except String TracerState :=
  if traceId = "" then .error "traceID is required"
  else .ok { st with steps := st.steps ++ [snapshotStep freshId now traceId] }

/-- The state `recordStep` succeeds with (for a non-empty traceId). -/
lemma recordStep_ok (st : TracerState) (freshId : String) (now : Int)
    (s : ExecStep) (h : s.traceId ≠ "") :
    recordStep st freshId now s =
      .ok { steps := st.steps ++ [assignedStep st freshId now s]
            costLog := st.costLog ++
              (if s.costTokens > 0 ∨ s.costAPI > 0 then
                [(s.traceId, s.costTokens, s.costAPI)] else []) } := by
  simp only [recordStep, assignedStep]
  split_ifs with h1 h2 h3 h4 h5 <;> simp_all

/-- C9: `RecordStep` rejects an empty `TraceID` before any store write;
otherwise it inserts exactly one step whose id is a fresh UUID when the
supplied one was empty, whose `CreatedAt`/`UpdatedAt` are overwritten
with the current time, and it invokes the trace cost accumulator
(`UpdateCost`) exactly when the step declares `CostTokens > 0` or
`CostAPI > 0`. -/
theorem recordStep_contract (st : TracerState) (freshId : String) (now : Int)
    (s : ExecStep) :
    (s.traceId = "" → recordStep st freshId now s = .error "traceID is required") ∧
    (s.traceId ≠ "" → ∃ st1,
      recordStep st freshId now s = .ok st1 ∧
      st1.steps = st.steps ++ [assignedStep st freshId now s] ∧
      (assignedStep st freshId now s).id = (if s.id = "" then freshId else s.id) ∧
      (assignedStep st freshId now s).createdAt = now ∧
      (assignedStep st freshId now s).updatedAt = now ∧
      st1.costLog = st.costLog ++
        (if s.costTokens > 0 ∨ s.costAPI > 0 then
          [(s.traceId, s.costTokens, s.costAPI)] else [])) := by
  constructor
  · intro h
    simp only [recordStep]
    split_ifs <;> simp_all
  · intro h
    exact ⟨_, recordStep_ok st freshId now s h, rfl, rfl, rfl, rfl, rfl⟩

/-- Witness for C9: recording a costly step on trace `t1` succeeds. -/
theorem recordStep_contract_witness :
    (recordStep (TracerState.mk [] []) "fresh" 7
        (ExecStep.mk "" "t1" 0 "llm_call" 10 (1/2) 5 0 0)).isOk = true := by
  obtain ⟨st1, h1, -⟩ :=
    (recordStep_contract (TracerState.mk [] []) "fresh" 7
      (ExecStep.mk "" "t1" 0 "llm_call" 10 (1/2) 5 0 0)).2 (by decide)
  rw [h1]
  rfl

/-! Subsection: Sequence density (claim C2): runs of recording calls. -/

/-- One recording call of the turn pipeline on a fixed trace:
`RecordStep` with the given sequence/type/cost, or `RecordSnapshot`. -/
inductive TraceCall where
  | record (seq : Int) (stepType : String) (costTokens : Int) (costAPI : ℚ)
  | snapshot

/-- The step a `TraceCall.record` submits (fresh ids and timestamps are
irrelevant to sequence assignment and fixed). -/
def callStep (t : String) (seq : Int) (stepType : String)
    (ct : Int) (ca : ℚ) : ExecStep :=
  { id := "", traceId := t, seq := seq, stepType := stepType
    costTokens := ct, costAPI := ca, latencyMs := 0
    createdAt := 0, updatedAt := 0 }

/-- Run a sequence of recording calls against one trace `t` (errors are
logged and skipped by every caller, so a failed call leaves the state
unchanged). -/
def runTraceCalls (t : String) : TracerState → List TraceCall → TracerState
  | st, [] => st
  | st, .record seq ty ct ca :: rest =>
    match recordStep st "step-id" 0 (callStep t seq ty ct ca) with
    | .ok st1 => runTraceCalls t st1 rest
    | .error _ => runTraceCalls t st rest
  | st, .snapshot :: rest =>
    match recordSnapshot st "snap-id" 0 t with
    | .ok st1 => runTraceCalls t st1 rest
    | .error _ => runTraceCalls t st rest

/-- C2 counterexample: a single `RecordSnapshot` call stores one step,
but its sequence number is 0, not 1 — the stored sequence set is {0},
not {1, …, n}. -/
theorem sequence_density_cx :
    (runTraceCalls "t1" (TracerState.mk [] []) [TraceCall.snapshot]).steps.length = 1 ∧
    (runTraceCalls "t1" (TracerState.mk [] []) [TraceCall.snapshot]).steps.map
      (fun s => s.seq) = [0] ∧
    (runTraceCalls "t1" (TracerState.mk [] []) [TraceCall.snapshot]).steps.map
      (fun s => s.seq) ≠ [1] := by
  refine ⟨rfl, rfl, by decide⟩

/-- When every stored step belongs to trace `t`, `getNextSequence` is
the store size plus one. -/
lemma getNextSequence_of_all (st : TracerState) (t : String)
    (hall : ∀ s ∈ st.steps, s.traceId = t) :
    getNextSequence st t = st.steps.length + 1 := by
  have : stepsOfTrace st t = st.steps := by
    apply List.filter_eq_self.mpr
    intro a ha
    exact beq_iff_eq.mpr (hall a ha)
  simp [getNextSequence, this]

/-- Auxiliary induction for C2: a run of `RecordStep` calls that all
leave the sequence unset appends the sequences
`len+1, len+2, …` to any all-`t` store. -/
lemma runTraceCalls_zero_seq_aux (t : String) (ht : t ≠ "") :
    ∀ (calls : List TraceCall),
      (∀ c ∈ calls, ∃ ty ct ca, c = TraceCall.record 0 ty ct ca) →
      ∀ st : TracerState, (∀ s ∈ st.steps, s.traceId = t) →
      (runTraceCalls t st calls).steps.map (fun s => s.seq) =
        st.steps.map (fun s => s.seq) ++
          (List.range calls.length).map
            (fun i => ((st.steps.length + i + 1 : ℕ) : Int)) := by
  intro calls
  induction calls with
  | nil => intro _ st _; simp [runTraceCalls]
  | cons c rest ih =>
    intro hcalls st hall
    obtain ⟨ty, ct, ca, rfl⟩ := hcalls c (List.mem_cons_self c rest)
    have hok := recordStep_ok st "step-id" 0 (callStep t 0 ty ct ca) (by simp [callStep, ht])
    simp only [runTraceCalls, hok]
    have hseq : (assignedStep st "step-id" 0 (callStep t 0 ty ct ca)).seq =
        (st.steps.length : Int) + 1 := by
      simp [assignedStep, callStep, getNextSequence_of_all st t hall]
    have htr : (assignedStep st "step-id" 0 (callStep t 0 ty ct ca)).traceId = t := by
      simp [assignedStep, callStep]
    set s3 := assignedStep st "step-id" 0 (callStep t 0 ty ct ca) with hs3
    set st1 : TracerState :=
      { steps := st.steps ++ [s3]
        costLog := st.costLog ++
          (if (callStep t 0 ty ct ca).costTokens > 0 ∨
              (callStep t 0 ty ct ca).costAPI > 0 then
            [((callStep t 0 ty ct ca).traceId, (callStep t 0 ty ct ca).costTokens,
              (callStep t 0 ty ct ca).costAPI)] else []) } with hst1
    have hall1 : ∀ s ∈ st1.steps, s.traceId = t := by
      intro s hs
      simp only [hst1, List.mem_append, List.mem_singleton] at hs
      rcases hs with hs | rfl
      · exact hall s hs
      · exact htr
    have hrest := ih (fun c hc => hcalls c (List.mem_cons_of_mem _ hc)) st1 hall1
    rw [hrest]
    simp only [hst1, List.map_append, List.map_cons, List.map_nil, hseq,
      List.length_cons, List.length_append, List.length_singleton, List.length_nil,
      List.range_succ_eq_map, List.map_map]
    rw [List.append_assoc]
    congr 1
    simp only [List.singleton_append, List.map_cons]
    congr 1
    apply List.map_congr_left
    intro i _
    simp only [Function.comp_apply]
    push_cast
    ring

/-- C2 amended: sequence numbers are dense `{1, …, n}` only for runs
consisting purely of `RecordStep` calls with an unset sequence;
`RecordSnapshot` bypasses sequence assignment and always stores its step
with sequence 0, so any trace containing snapshots violates uniqueness
and density (and the handler's explicit `Sequence: 1` on the LLM step is
kept as supplied, not reassigned). -/
theorem sequence_assignment_amended (t : String) (ht : t ≠ "") :
    (∀ (st : TracerState) (freshId : String) (now : Int), ∃ st1,
      recordSnapshot st freshId now t = .ok st1 ∧
      st1.steps = st.steps ++ [snapshotStep freshId now t] ∧
      (snapshotStep freshId now t).seq = 0) ∧
    (∀ (st : TracerState) (freshId : String) (now : Int) (s : ExecStep),
      s.traceId = t → s.seq ≠ 0 → ∃ st1,
      recordStep st freshId now s = .ok st1 ∧
      st1.steps = st.steps ++ [assignedStep st freshId now s] ∧
      (assignedStep st freshId now s).seq = s.seq) ∧
    (∀ calls : List TraceCall,
      (∀ c ∈ calls, ∃ ty ct ca, c = TraceCall.record 0 ty ct ca) →
      (runTraceCalls t (TracerState.mk [] []) calls).steps.map (fun s => s.seq) =
        (List.range calls.length).map (fun i => ((i + 1 : ℕ) : Int))) := by
  refine ⟨?_, ?_, ?_⟩
  · intro st freshId now
    refine ⟨{ st with steps := st.steps ++ [snapshotStep freshId now t] }, ?_, rfl, rfl⟩
    simp [recordSnapshot, ht]
  · intro st freshId now s hst hseq
    refine ⟨_, recordStep_ok st freshId now s (by rw [hst]; exact ht), rfl, ?_⟩
    simp [assignedStep, hseq]
  · intro calls hcalls
    have h := runTraceCalls_zero_seq_aux t ht calls hcalls
      (TracerState.mk [] []) (by intro s hs; simp at hs)
    simpa using h

/-- Witness for C2 amended: two unset-sequence `RecordStep` calls on a
fresh trace store sequences `[1, 2]`. -/
theorem sequence_assignment_witness :
    (runTraceCalls "t1" (TracerState.mk [] [])
        [TraceCall.record 0 "llm_call" 0 0,
         TraceCall.record 0 "tool_call" 0 0]).steps.map (fun s => s.seq) =
      [1, 2] := by
  have h := (sequence_assignment_amended "t1" (by decide)).2.2
    [TraceCall.record 0 "llm_call" 0 0, TraceCall.record 0 "tool_call" 0 0]
    (by rintro c hc
        simp only [List.mem_cons, List.not_mem_nil, or_false] at hc
        rcases hc with rfl | rfl
        · exact ⟨"llm_call", 0, 0, rfl⟩
        · exact ⟨"tool_call", 0, 0, rfl⟩)
  simpa using h

/-! Subsection: Trace status transitions (claim C3)
    (traceRepository.UpdateStatus, TracerImplService.EndTrace).
    Go's `model.TraceStatus` is a string type; statuses are `String`. -/

/-- The status-relevant columns of a `traces` row. -/
structure TraceRec where
  status : String
  endedAt : Option Int
deriving DecidableEq, Repr

/-- The trace table keyed by trace id. -/
abbrev TraceStore := List (String × TraceRec)

/-- Embeds `traceRepository.UpdateStatus`: a plain `UPDATE … SET status, ended_at
WHERE id = ?` — it overwrites both columns on every matching row,
unconditionally, and reports no error regardless of the previous
status. -/
def updateStatus (store : TraceStore) (traceId status : String)
    (endedAt : Int) : TraceStore :=
  store.map (fun p =>
    if p.1 = traceId then (p.1, TraceRec.mk status (some endedAt)) else p)

/-- Embeds `TracerImplService.EndTrace`: `UpdateStatus(traceId, status, now)`. -/
def endTrace (store : TraceStore) (traceId status : String)
    (now : Int) : TraceStore :=
  updateStatus store traceId status now

/-- Reading a trace row back (`traceRepository.GetByID`). -/
def lookupTrace (store : TraceStore) (traceId : String) : Option TraceRec :=
  (store.find? (fun p => p.1 == traceId)).map Prod.snd

/-- C3 counterexample: on a trace ended as `completed` at time 5, a
second `EndTrace` with the differing terminal `failed` succeeds and
overwrites the stored state (no Conflict error exists anywhere in the
operation), and even a repeat `EndTrace` with the same status changes
the stored state by refreshing `endedAt`. -/
theorem trace_terminal_cx :
    lookupTrace
      (endTrace (endTrace [("t", TraceRec.mk "running" none)] "t" "completed" 5)
        "t" "failed" 9) "t" = some (TraceRec.mk "failed" (some 9)) ∧
    endTrace (endTrace [("t", TraceRec.mk "running" none)] "t" "completed" 5)
        "t" "completed" 9 ≠
      endTrace [("t", TraceRec.mk "running" none)] "t" "completed" 5 := by
  refine ⟨rfl, by decide⟩

/-- Updating a status rewrites exactly the looked-up row. -/
lemma lookupTrace_updateStatus (store : TraceStore) (traceId status : String)
    (endedAt : Int) :
    lookupTrace (updateStatus store traceId status endedAt) traceId =
      (lookupTrace store traceId).map
        (fun _ => TraceRec.mk status (some endedAt)) := by
  induction store with
  | nil => rfl
  | cons p rest ih =>
    by_cases h : p.1 = traceId
    · simp [lookupTrace, updateStatus, List.find?, h]
    · have hb : (p.1 == traceId) = false := beq_eq_false_iff_ne.mpr h
      simpa [lookupTrace, updateStatus, List.find?, h, hb] using ih

/-- C3 amended: `EndTrace`/`UpdateStatus` is an unconditional
last-writer-wins transition: every call stores the given status and
sets `endedAt` to the call's time; a repeated terminal with the same
status refreshes `endedAt` rather than leaving the state unchanged, and
a differing terminal overwrites the earlier one instead of failing with
a Conflict error. -/
theorem endTrace_last_writer_wins (store : TraceStore) (traceId : String)
    (s1 s2 : String) (t1 t2 : Int) (r : TraceRec)
    (h : lookupTrace store traceId = some r) :
    lookupTrace (endTrace store traceId s1 t1) traceId =
      some (TraceRec.mk s1 (some t1)) ∧
    lookupTrace (endTrace (endTrace store traceId s1 t1) traceId s2 t2) traceId =
      some (TraceRec.mk s2 (some t2)) := by
  constructor
  · rw [endTrace, lookupTrace_updateStatus, h]
    rfl
  · rw [endTrace, endTrace, lookupTrace_updateStatus, lookupTrace_updateStatus, h]
    rfl

/-- Witness for C3 amended: a concrete completed-then-failed overwrite. -/
theorem endTrace_last_writer_wins_witness :
    lookupTrace
      (endTrace (endTrace [("t", TraceRec.mk "running" none)] "t" "completed" 5)
        "t" "failed" 9) "t" = some (TraceRec.mk "failed" (some 9)) :=
  (endTrace_last_writer_wins [("t", TraceRec.mk "running" none)] "t"
    "completed" "failed" 5 9 (TraceRec.mk "running" none) rfl).2

/-! Section: Metrics calculator and cost analyzer
    (metrics_calculator.go MetricsCalculatorImpl.Sum/Avg/Max/Min,
    cost analyzer CostAnalyzerImpl.Analyze / calculateSummary /
    IdentifyHotspots, DataAggregatorImpl.FilterTraces, and the
    GET /analysis/cost handler AnalysisHandler.AnalyzeCost).
    Go `float64` values are embedded as `ℚ`. -/

/-- The cost-relevant fields of a `model.Trace` row. -/
structure TraceCost where
  id : String
  costTokens : Int
  costAPI : ℚ
  startedAt : Int
deriving DecidableEq, Repr

/-- Embeds `MetricsCalculatorImpl.Sum`: a running-total loop. -/
def mSum (values : List ℚ) : ℚ :=
  values.foldl (fun acc v => acc + v) 0

/-- Embeds `MetricsCalculatorImpl.Avg`: `Sum / len` (no emptiness guard in the
source; callers on the cost path never pass an empty list). -/
def mAvg (values : List ℚ) : ℚ :=
  mSum values / values.length

/-- Embeds `MetricsCalculatorImpl.Max`: starts from `values[0]` — reading
element 0 of an empty slice panics, modelled as `none`. -/
def mMax (values : List ℚ) : Option ℚ :=
  match values with
  | [] => none
  | v :: _ => some (values.foldl (fun acc x => if x > acc then x else acc) v)

/-- Embeds `MetricsCalculatorImpl.Min`: same shape as `Max` with `<`. -/
def mMin (values : List ℚ) : Option ℚ :=
  match values with
  | [] => none
  | v :: _ => some (values.foldl (fun acc x => if x < acc then x else acc) v)

/-- Embeds `CostSummary` (cost analyzer result summary). -/
structure CostSummary where
  totalCost : ℚ
  avgCost : ℚ
  maxCost : ℚ
  minCost : ℚ
  totalTokens : Int
  traceCount : Nat
  costPerToken : ℚ
deriving DecidableEq, Repr

/-- Embeds `CostAnalyzerImpl.calculateSummary`: build the per-trace cost vector,
total the tokens, and fill the summary from the metric helpers; `none`
propagates a `Max`/`Min` panic on an empty vector. -/
def calculateSummary (traces : List TraceCost) : Option CostSummary :=
  let costs := traces.map (fun t => t.costAPI)
  let totalTokens : Int := (traces.map (fun t => t.costTokens)).foldl (fun a b => a + b) 0
  match mMax costs, mMin costs with
  | some mx, some mn =>
    let totalCost := mSum costs
    some { totalCost := totalCost
           avgCost := mAvg costs
           maxCost := mx
           minCost := mn
           totalTokens := totalTokens
           traceCount := traces.length
           costPerToken := if totalTokens > 0 then totalCost / totalTokens else 0 }
  | _, _ => none

/-- The descending-cost ordering `IdentifyHotspots` sorts by
(`sort.Slice` with `CostAPI >`; the sort is modelled by insertion sort,
which realises the same comparator contract). -/
def sortByCostDesc (traces : List TraceCost) : List TraceCost :=
  List.insertionSort (fun a b => b.costAPI ≤ a.costAPI) traces

/-- Embeds `CostHotspot` (trace id, cost, tokens, impact; the free-text reason
field carries no logic). -/
structure CostHotspot where
  traceId : String
  cost : ℚ
  tokens : Int
  impact : String
deriving DecidableEq, Repr

/-- The impact tagging of `IdentifyHotspots`. -/
def impactOf (cost : ℚ) : String :=
  if cost > 1 then "high" else if cost > 1/10 then "medium" else "low"

/-- Embeds `CostAnalyzerImpl.IdentifyHotspots`: sort by cost descending, take
the top N, tag each with its impact level. -/
def identifyHotspots (traces : List TraceCost) (topN : Nat) : List CostHotspot :=
  ((sortByCostDesc traces).take topN).map (fun t =>
    { traceId := t.id, cost := t.costAPI, tokens := t.costTokens
      impact := if t.costAPI > (1 : ℚ) then "high"
                else if t.costAPI > (1/10 : ℚ) then "medium" else "low" })

/-- Embeds `service.TimeRange`. -/
structure TimeRange where
  startTime : String
  endTime : String
deriving DecidableEq, Repr

/-- Embeds `service.FilterCriteria`. -/
structure FilterCriteria where
  minCost : ℚ
  maxCost : ℚ
  status : String
  modelNames : List String
  stepTypes : List String
deriving DecidableEq, Repr

/-- Embeds `DataAggregatorImpl.FilterTraces`: the body is a TODO stub that
returns nil for every input. -/
def filterTraces (_traces : List TraceCost) (_criteria : FilterCriteria) :
    List TraceCost :=
  []

/-- Embeds `service.CostAnalysisInput`. -/
structure CostAnalysisInput where
  sessionId : String
  timeRange : Option TimeRange
  groupBy : List String
  filters : Option FilterCriteria
deriving DecidableEq, Repr

/-- One cumulative-cost data point of the trend series. -/
structure CostPoint where
  startedAt : Int
  cumulative : ℚ
deriving DecidableEq, Repr

/-- The cumulative-cost loop of `analyzeTrends`. -/
def cumulativePoints (acc : ℚ) : List TraceCost → List CostPoint
  | [] => []
  | t :: rest =>
    { startedAt := t.startedAt, cumulative := acc + t.costAPI } ::
      cumulativePoints (acc + t.costAPI) rest

/-- Embeds `CostTrend`. -/
structure CostTrend where
  dataPoints : List CostPoint
  growthRate : ℚ
  isIncreasing : Bool
deriving DecidableEq, Repr

/-- Embeds `CostAnalyzerImpl.analyzeTrends`: sort by `StartedAt` ascending,
accumulate, and compute the growth rate from the first and last trace
costs when there is more than one trace and the first cost is positive. -/
def analyzeTrends (traces : List TraceCost) : CostTrend :=
  let sorted := List.insertionSort (fun a b => a.startedAt ≤ b.startedAt) traces
  let dataPoints := cumulativePoints 0 sorted
  match sorted with
  | [] => { dataPoints := dataPoints, growthRate := 0, isIncreasing := false }
  | first :: rest =>
    if rest.length = 0 then
      { dataPoints := dataPoints, growthRate := 0, isIncreasing := false }
    else
      let last := (first :: rest).getLast (by simp)
      if first.costAPI > 0 then
        { dataPoints := dataPoints
          growthRate := (last.costAPI - first.costAPI) / first.costAPI
          isIncreasing := decide (last.costAPI > first.costAPI) }
      else
        { dataPoints := dataPoints, growthRate := 0, isIncreasing := false }

/-- Embeds `CostAnalysisResult`, restricted to the claim-relevant parts
(the `Breakdown` maps and the always-empty `Suggestions` list carry no
logic any claim depends on). -/
structure CostAnalysisResult where
  sessionId : String
  summary : CostSummary
  trends : Option CostTrend
  hotspots : List CostHotspot
deriving DecidableEq, Repr

/-- Embeds `CostAnalyzerImpl.Analyze`: zero traces short-circuit to an
all-zero summary; otherwise the traces are filtered when `Filters` is
present (through the nil-returning stub) and the summary, trends and
top-5 hotspots are computed.  `none` models the `Max`/`Min` panic on an
empty cost vector. -/
def analyze (sessionId : String) (traces : List TraceCost)
    (filters : Option FilterCriteria) : Option CostAnalysisResult :=
  if traces.isEmpty then
    some { sessionId := sessionId
           summary := CostSummary.mk 0 0 0 0 0 0 0
           trends := none
           hotspots := [] }
  else
    let traces1 := match filters with
      | some f => filterTraces traces f
      | none => traces
    match calculateSummary traces1 with
    | none => none
    | some s =>
      some { sessionId := sessionId
             summary := s
             trends := some (analyzeTrends traces1)
             hotspots := identifyHotspots traces1 5 }

/-- Embeds `AnalysisHandler.AnalyzeCost` builds the analysis input with the
fixed groupBy list and — decisively — no `Filters` field at all. -/
def buildCostAnalysisInput (sessionId : String) (timeRange : Option TimeRange) :
    CostAnalysisInput :=
  { sessionId := sessionId
    timeRange := timeRange
    groupBy := ["model", "step_type", "time"]
    filters := none }

/-! Subsection: Helper lemmas for the metric folds. -/

lemma mSum_eq_sum (l : List ℚ) : mSum l = l.sum := by
  rw [mSum, List.sum_eq_foldl]

lemma intFoldl_eq_sum (l : List Int) : l.foldl (fun a b => a + b) 0 = l.sum := by
  rw [List.sum_eq_foldl]

lemma le_foldl_gmax (l : List ℚ) :
    ∀ acc : ℚ, acc ≤ l.foldl (fun acc x => if x > acc then x else acc) acc := by
  induction l with
  | nil => intro acc; simp
  | cons y ys ih =>
    intro acc
    refine le_trans ?_ (ih (if y > acc then y else acc))
    split_ifs with h
    · exact le_of_lt h
    · exact le_refl acc

lemma mem_le_foldl_gmax (l : List ℚ) :
    ∀ acc : ℚ, ∀ x ∈ l, x ≤ l.foldl (fun acc x => if x > acc then x else acc) acc := by
  induction l with
  | nil => intro acc x hx; simp at hx
  | cons y ys ih =>
    intro acc x hx
    rcases List.mem_cons.mp hx with rfl | hx
    · refine le_trans ?_ (le_foldl_gmax ys (if x > acc then x else acc))
      split_ifs with h
      · exact le_refl x
      · exact le_of_not_lt h
    · exact ih (if y > acc then y else acc) x hx

lemma foldl_gmax_mem (l : List ℚ) :
    ∀ acc : ℚ, l.foldl (fun acc x => if x > acc then x else acc) acc = acc ∨
      l.foldl (fun acc x => if x > acc then x else acc) acc ∈ l := by
  induction l with
  | nil => intro acc; exact Or.inl rfl
  | cons y ys ih =>
    intro acc
    rcases ih (if y > acc then y else acc) with h | h
    · rw [List.foldl_cons, h]
      split_ifs with hy
      · exact Or.inr (List.mem_cons_self _ _)
      · exact Or.inl rfl
    · exact Or.inr (List.mem_cons_of_mem _ (by simpa using h))

lemma foldl_gmin_le (l : List ℚ) :
    ∀ acc : ℚ, l.foldl (fun acc x => if x < acc then x else acc) acc ≤ acc := by
  induction l with
  | nil => intro acc; simp
  | cons y ys ih =>
    intro acc
    refine le_trans (ih (if y < acc then y else acc)) ?_
    split_ifs with h
    · exact le_of_lt h
    · exact le_refl acc

lemma foldl_gmin_le_mem (l : List ℚ) :
    ∀ acc : ℚ, ∀ x ∈ l, l.foldl (fun acc x => if x < acc then x else acc) acc ≤ x := by
  induction l with
  | nil => intro acc x hx; simp at hx
  | cons y ys ih =>
    intro acc x hx
    rcases List.mem_cons.mp hx with rfl | hx
    · refine le_trans (foldl_gmin_le ys (if x < acc then x else acc)) ?_
      split_ifs with h
      · exact le_refl x
      · exact le_of_not_lt h
    · exact ih (if y < acc then y else acc) x hx

lemma foldl_gmin_mem (l : List ℚ) :
    ∀ acc : ℚ, l.foldl (fun acc x => if x < acc then x else acc) acc = acc ∨
      l.foldl (fun acc x => if x < acc then x else acc) acc ∈ l := by
  induction l with
  | nil => intro acc; exact Or.inl rfl
  | cons y ys ih =>
    intro acc
    rcases ih (if y < acc then y else acc) with h | h
    · rw [List.foldl_cons, h]
      split_ifs with hy
      · exact Or.inr (List.mem_cons_self _ _)
      · exact Or.inl rfl
    · exact Or.inr (List.mem_cons_of_mem _ (by simpa using h))

/-- The `Max` of a non-empty vector is an attained upper bound. -/
lemma mMax_spec (v : ℚ) (rest : List ℚ) :
    ∃ m, mMax (v :: rest) = some m ∧ m ∈ v :: rest ∧ ∀ x ∈ v :: rest, x ≤ m := by
  refine ⟨_, rfl, ?_, ?_⟩
  · rcases foldl_gmax_mem (v :: rest) v with h | h
    · rw [h]; exact List.mem_cons_self _ _
    · exact h
  · exact fun x hx => mem_le_foldl_gmax (v :: rest) v x hx

/-- The `Min` of a non-empty vector is an attained lower bound. -/
lemma mMin_spec (v : ℚ) (rest : List ℚ) :
    ∃ m, mMin (v :: rest) = some m ∧ m ∈ v :: rest ∧ ∀ x ∈ v :: rest, m ≤ x := by
  refine ⟨_, rfl, ?_, ?_⟩
  · rcases foldl_gmin_mem (v :: rest) v with h | h
    · rw [h]; exact List.mem_cons_self _ _
    · exact h
  · exact fun x hx => foldl_gmin_le_mem (v :: rest) v x hx

instance : IsTotal TraceCost (fun a b => b.costAPI ≤ a.costAPI) :=
  ⟨fun a b => le_total b.costAPI a.costAPI⟩

instance : IsTrans TraceCost (fun a b => b.costAPI ≤ a.costAPI) :=
  ⟨fun _ _ _ hab hbc => le_trans hbc hab⟩

/-- C7: on a non-empty trace list the cost summary is the claimed
aggregate (total = Σ costAPI, avg = total / count, max/min are attained
extrema, totalTokens = Σ costTokens, costPerToken guarded by
totalTokens > 0), and the hotspots are the top-5 traces by costAPI
descending — min 5 n of them, sorted descending, each tagged with the
claimed impact level, and dominating every trace left out. -/
theorem cost_summary_hotspots (traces : List TraceCost) (h : traces ≠ []) :
    (∃ s, calculateSummary traces = some s ∧
      s.totalCost = (traces.map (fun t => t.costAPI)).sum ∧
      s.avgCost = s.totalCost / (traces.length : ℚ) ∧
      s.maxCost ∈ traces.map (fun t => t.costAPI) ∧
      (∀ c ∈ traces.map (fun t => t.costAPI), c ≤ s.maxCost) ∧
      s.minCost ∈ traces.map (fun t => t.costAPI) ∧
      (∀ c ∈ traces.map (fun t => t.costAPI), s.minCost ≤ c) ∧
      s.totalTokens = (traces.map (fun t => t.costTokens)).sum ∧
      s.traceCount = traces.length ∧
      s.costPerToken =
        (if 0 < s.totalTokens then s.totalCost / (s.totalTokens : ℚ) else 0)) ∧
    (identifyHotspots traces 5).length = min 5 traces.length ∧
    List.Sorted (fun a b : CostHotspot => b.cost ≤ a.cost) (identifyHotspots traces 5) ∧
    (∀ x ∈ identifyHotspots traces 5, x.impact = impactOf x.cost) ∧
    (∃ rest : List (String × ℚ × Int),
      List.Perm
        ((identifyHotspots traces 5).map (fun x => (x.traceId, x.cost, x.tokens)) ++ rest)
        (traces.map (fun t => (t.id, t.costAPI, t.costTokens))) ∧
      ∀ p ∈ rest, ∀ x ∈ identifyHotspots traces 5, p.2.1 ≤ x.cost) := by
  obtain ⟨t0, ts, rfl⟩ := List.exists_cons_of_ne_nil h
  constructor
  · obtain ⟨mx, hmx, hmxmem, hmxub⟩ := mMax_spec t0.costAPI (ts.map (fun t => t.costAPI))
    obtain ⟨mn, hmn, hmnmem, hmnlb⟩ := mMin_spec t0.costAPI (ts.map (fun t => t.costAPI))
    have hcs : calculateSummary (t0 :: ts) = some
        { totalCost := mSum (t0.costAPI :: ts.map (fun t => t.costAPI))
          avgCost := mAvg (t0.costAPI :: ts.map (fun t => t.costAPI))
          maxCost := mx
          minCost := mn
          totalTokens :=
            (t0.costTokens :: ts.map (fun t => t.costTokens)).foldl (fun a b => a + b) 0
          traceCount := ts.length + 1
          costPerToken :=
            if (t0.costTokens :: ts.map (fun t => t.costTokens)).foldl
                (fun a b => a + b) 0 > 0 then
              mSum (t0.costAPI :: ts.map (fun t => t.costAPI)) /
                (Int.cast ((t0.costTokens :: ts.map (fun t => t.costTokens)).foldl
                  (fun a b => a + b) 0) : ℚ)
            else 0 } := by
      simp only [calculateSummary, List.map_cons, hmx, hmn, List.length_cons]
    refine ⟨_, hcs, ?_, ?_, ?_, ?_, ?_, ?_, ?_, ?_, ?_⟩
    · simp [mSum_eq_sum]
    · simp [mAvg]
    · simpa using hmxmem
    · simpa using hmxub
    · simpa using hmnmem
    · simpa using hmnlb
    · show (t0.costTokens :: ts.map (fun t => t.costTokens)).foldl
          (fun a b => a + b) 0 = ((t0 :: ts).map (fun t => t.costTokens)).sum
      rw [List.map_cons]
      exact intFoldl_eq_sum _
    · simp
    · rfl
  · have hsorted : List.Sorted (fun a b : TraceCost => b.costAPI ≤ a.costAPI)
        (sortByCostDesc (t0 :: ts)) :=
      List.sorted_insertionSort _ _
    refine ⟨?_, ?_, ?_, ?_⟩
    · simp only [identifyHotspots, List.length_map, List.length_take, sortByCostDesc,
        List.length_insertionSort, List.length_cons]
    · apply List.pairwise_map.mpr
      exact (hsorted.sublist (List.take_sublist 5 _))
    · intro x hx
      simp only [identifyHotspots, List.mem_map] at hx
      obtain ⟨t, -, rfl⟩ := hx
      simp [impactOf]
    · refine ⟨((sortByCostDesc (t0 :: ts)).drop 5).map
        (fun t => (t.id, t.costAPI, t.costTokens)), ?_, ?_⟩
      · have hmm : (identifyHotspots (t0 :: ts) 5).map
            (fun x => (x.traceId, x.cost, x.tokens)) =
            ((sortByCostDesc (t0 :: ts)).take 5).map
              (fun t => (t.id, t.costAPI, t.costTokens)) := by
          simp [identifyHotspots, List.map_map]
          rfl
        rw [hmm, ← List.map_append, List.take_append_drop]
        exact (List.perm_insertionSort _ (t0 :: ts)).map _
      · intro p hp x hx
        simp only [List.mem_map] at hp
        obtain ⟨b, hb, rfl⟩ := hp
        simp only [identifyHotspots, List.mem_map] at hx
        obtain ⟨a, ha, rfl⟩ := hx
        have hsplit : List.Pairwise (fun a b : TraceCost => b.costAPI ≤ a.costAPI)
            ((sortByCostDesc (t0 :: ts)).take 5 ++ (sortByCostDesc (t0 :: ts)).drop 5) := by
          rw [List.take_append_drop]
          exact hsorted
        exact (List.pairwise_append.mp hsplit).2.2 a ha b hb

/-- A concrete trace list for the C7 witness (spec scenario S6). -/
def demoTraces : List TraceCost :=
  [TraceCost.mk "a" 10 (1/20) 1, TraceCost.mk "b" 20 (1/5) 2,
   TraceCost.mk "c" 30 (3/2) 3]

/-- Witness for C7: the hotspot list of the S6 traces has all three
entries. -/
theorem cost_summary_hotspots_witness :
    (identifyHotspots demoTraces 5).length = 3 :=
  ((cost_summary_hotspots demoTraces (by decide)).2.1).trans (by decide)

/-- C10: with zero traces, `Analyze` returns the all-zero summary and no
error; the `Max`/`Min` helpers are partial on an empty vector (`none`
models the index-0 panic), yet the cost-analysis handler path can never
reach them on one: the handler builds its input without `Filters`, and
with `filters = none` the analysis always succeeds, whereas any
nonempty trace list analysed with a filter present would hit the
nil-returning `FilterTraces` stub and panic in `Max`. -/
theorem analyze_empty_and_handler_path :
    analyze "s" [] none =
      some { sessionId := "s", summary := CostSummary.mk 0 0 0 0 0 0 0
             trends := none, hotspots := [] } ∧
    mMax [] = none ∧ mMin [] = none ∧
    (∀ (sid : String) (tr : Option TimeRange),
      (buildCostAnalysisInput sid tr).filters = none) ∧
    (∀ (sid : String) (traces : List TraceCost) (tr : Option TimeRange),
      (analyze sid traces (buildCostAnalysisInput sid tr).filters).isSome = true) ∧
    (∀ (sid : String) (t : TraceCost) (ts : List TraceCost) (f : FilterCriteria),
      analyze sid (t :: ts) (some f) = none) := by
  refine ⟨rfl, rfl, rfl, fun _ _ => rfl, ?_, ?_⟩
  · intro sid traces tr
    cases traces with
    | nil => rfl
    | cons t ts =>
      obtain ⟨mx, hmx, -, -⟩ := mMax_spec t.costAPI (ts.map (fun x => x.costAPI))
      obtain ⟨mn, hmn, -, -⟩ := mMin_spec t.costAPI (ts.map (fun x => x.costAPI))
      simp [analyze, buildCostAnalysisInput, calculateSummary, List.map_cons, hmx, hmn]
  · intro sid t ts f
    simp [analyze, filterTraces, calculateSummary, mMax, mMin]

/-! Section: Activity supervisor
    (handler.ActivityTracker: UpdateActivity, StartMonitoring,
    shouldTimeout).  Wall-clock instants are `Int`; the poller fires at
    the poll instants of the event list, and `UpdateActivity` refreshes
    `lastActivity`.  `lastActivity` and `totalStart` are both
    initialised to the tracker's creation time. -/

/-- Embeds `StreamTimeoutConfig` (the initial timeout is never read by the
monitor). -/
structure SupervisorConfig where
  activityTimeout : Int
  maxTotalTimeout : Int
deriving DecidableEq, Repr

/-- One observable event of a monitored stream: an `UpdateActivity`
call, or one firing of the 1-second poll ticker, each at its instant. -/
inductive SupEvent where
  | update (t : Int)
  | poll (t : Int)
deriving DecidableEq, Repr

/-- Embeds `ActivityTracker.shouldTimeout`: idle longer than the activity
timeout, or total elapsed longer than the hard cap. -/
def shouldTimeout (cfg : SupervisorConfig) (totalStart lastActivity now : Int) : Bool :=
  (now - lastActivity > cfg.activityTimeout) || (now - totalStart > cfg.maxTotalTimeout)

/-- The monitor loop of `StartMonitoring`: at every poll it checks
`shouldTimeout` and cancels (returning the cancellation instant) on the
first true; updates refresh `lastActivity`. -/
def runMonitor (cfg : SupervisorConfig) (totalStart : Int) :
    Int → List SupEvent → Option Int
  | _, [] => none
  | _, .update t :: rest => runMonitor cfg totalStart t rest
  | la, .poll t :: rest =>
    if shouldTimeout cfg totalStart la t then some t
    else runMonitor cfg totalStart la rest

/-- The claim's activity hypothesis as an executable check: at every
poll, the elapsed time since the last activity (or since `lastActivity`
at entry) is at most the activity timeout. -/
def pollsWithinActivity (cfg : SupervisorConfig) : Int → List SupEvent → Bool
  | _, [] => true
  | _, .update t :: rest => pollsWithinActivity cfg t rest
  | la, .poll t :: rest =>
    (t - la ≤ cfg.activityTimeout) && pollsWithinActivity cfg la rest

/-- Auxiliary induction for C8, generalised over the entry
`lastActivity`. -/
lemma runMonitor_cancel_aux (cfg : SupervisorConfig) (totalStart : Int) :
    ∀ (events : List SupEvent) (la : Int),
      pollsWithinActivity cfg la events = true →
      ∀ t, runMonitor cfg totalStart la events = some t →
        (t - totalStart > cfg.maxTotalTimeout ∧
         SupEvent.poll t ∈ events ∧
         ∃ la0, shouldTimeout cfg totalStart la0 t = true) := by
  intro events
  induction events with
  | nil => intro la _ t ht; simp [runMonitor] at ht
  | cons e rest ih =>
    intro la hp t ht
    cases e with
    | update u =>
      simp only [pollsWithinActivity] at hp
      simp only [runMonitor] at ht
      obtain ⟨h1, h2, h3⟩ := ih u hp t ht
      exact ⟨h1, List.mem_cons_of_mem _ h2, h3⟩
    | poll p =>
      simp only [pollsWithinActivity, Bool.and_eq_true, decide_eq_true_eq] at hp
      simp only [runMonitor] at ht
      by_cases hto : shouldTimeout cfg totalStart la p = true
      · rw [if_pos hto] at ht
        obtain rfl : p = t := by simpa using ht
        refine ⟨?_, List.mem_cons_self _ _, la, hto⟩
        have hdisj : cfg.activityTimeout < p - la ∨ cfg.maxTotalTimeout < p - totalStart := by
          simpa [shouldTimeout] using hto
        rcases hdisj with hidle | htot
        · exact absurd hidle (not_lt.mpr hp.1)
        · exact htot
      · rw [if_neg hto] at ht
        obtain ⟨h1, h2, h3⟩ := ih la hp.2 t ht
        exact ⟨h1, List.mem_cons_of_mem _ h2, h3⟩

/-- C8: when every poll of the monitor observes an idle time of at most
`activityTimeout`, the supervisor does not cancel at or before
`startTs + maxTotalTimeout`; and a cancellation only ever happens at a
poll instant at which one of the two timeout predicates holds. -/
theorem supervisor_boundary (cfg : SupervisorConfig) (startTs : Int)
    (events : List SupEvent) (t : Int)
    (hp : pollsWithinActivity cfg startTs events = true)
    (hc : runMonitor cfg startTs startTs events = some t) :
    t > startTs + cfg.maxTotalTimeout ∧
    SupEvent.poll t ∈ events ∧
    ∃ la0, shouldTimeout cfg startTs la0 t = true := by
  obtain ⟨h1, h2, h3⟩ := runMonitor_cancel_aux cfg startTs events startTs hp t hc
  exact ⟨by omega, h2, h3⟩

/-- Witness for C8: a stream refreshed every 10s is cancelled only by
the hard 1800s cap, at instant 1900 > 0 + 1800. -/
theorem supervisor_boundary_witness :
    (1900 : Int) > 0 + (SupervisorConfig.mk 30 1800).maxTotalTimeout ∧
    SupEvent.poll 1900 ∈
      [SupEvent.update 1890, SupEvent.poll 1900] ∧
    ∃ la0, shouldTimeout (SupervisorConfig.mk 30 1800) 0 la0 1900 = true :=
  supervisor_boundary (SupervisorConfig.mk 30 1800) 0
    [SupEvent.update 1890, SupEvent.poll 1900] 1900 (by decide) (by decide)

/-! Section: The streaming bridge
    (GRPCLLMClient.ExecuteAgentStream and the consumption stage of
    LLMHandler.ChatStream, from the `ExecuteChatStream` call to the
    final `done` event).  The model covers a turn whose trace was
    opened successfully.  IO write failures of the SSE writer are not
    modelled (every callback invocation succeeds), and JSON encoding is
    structural. -/

/-- One upstream chunk as `ExecuteAgentStream` converts it
(`StreamChunk`); the usage map is reduced to its `total_tokens` entry,
optional exactly when the wire `Usage` field is nil. -/
inductive Chunk where
  | contentDelta (s : String)
  | toolCall
  | usageUpdate (usage : Option Int)
  | finalResponse (usage : Option Int) (cost : ℚ) (execTime : ℚ)
  | errorChunk (msg : String)
deriving DecidableEq, Repr

/-- One outcome of `stream.Recv()`: a message, clean end-of-stream,
a gRPC `Cancelled` status (context cancellation by the supervisor or
the client), or any other stream failure. -/
inductive RecvResult where
  | msg (c : Chunk)
  | eof
  | canceled
  | failure (m : String)
deriving DecidableEq, Repr

/-- One SSE record written to the client (the JSON payload keyed by its
`type` discriminator). -/
inductive SSE where
  | contentDelta (content : String)
  | toolCall
  | usageUpdate (usage : Option Int)
  | finalResponse (usage : Option Int) (cost : ℚ) (execTime : ℚ)
  | err (msg : String)
  | done
deriving DecidableEq, Repr

/-- The accumulator state of the `ChatStream` callback: assembled
content, running totals, and the `llm_call_stream` step recorded on the
final response (its CostTokens and CostAPI). -/
structure StreamAcc where
  fullContent : String
  totalTokens : Int
  totalCost : ℚ
  stepRecorded : Option (Int × ℚ)
deriving DecidableEq, Repr

/-- The accumulator at entry to the chunk loop. -/
def initialAcc : StreamAcc :=
  { fullContent := "", totalTokens := 0, totalCost := 0, stepRecorded := none }

/-- One execution of the `ChatStream` callback body on a chunk: update
the accumulator, record the step on `final_response`, and produce the
SSE event that is written and flushed. -/
def processChunk (acc : StreamAcc) : Chunk → StreamAcc × SSE
  | .contentDelta s =>
    ({ acc with fullContent := acc.fullContent ++ s }, .contentDelta s)
  | .toolCall => (acc, .toolCall)
  | .usageUpdate u =>
    ({ acc with totalTokens := u.getD acc.totalTokens }, .usageUpdate u)
  | .finalResponse u cost et =>
    ({ acc with totalTokens := u.getD acc.totalTokens, totalCost := cost
                stepRecorded := some (u.getD acc.totalTokens, cost) },
     .finalResponse u cost et)
  | .errorChunk m => (acc, .err m)

/-- The client stops reading after an `error` or `final_response`
chunk (and returns nil in both cases). -/
def isTerminalChunk : Chunk → Bool
  | .finalResponse _ _ _ => true
  | .errorChunk _ => true
  | _ => false

/-- What `ExecuteAgentStream` hands back to the handler: the callback
accumulator, the SSE events emitted through the callback, and the
returned error. -/
structure ClientStreamResult where
  acc : StreamAcc
  emitted : List SSE
  streamError : Option String
deriving DecidableEq, Repr

/-- The receive loop of `GRPCLLMClient.ExecuteAgentStream`: `io.EOF`
returns nil; a gRPC `Cancelled` status returns nil ("stream canceled by
user"); any other receive error returns `stream error: …`; a message is
converted, handed to the callback, and the loop ends (returning nil)
after an `error` or `final_response` chunk.  An exhausted event list
means no further message arrives (as for a closed stream). -/
def clientLoop (acc : StreamAcc) : List RecvResult → ClientStreamResult
  | [] => { acc := acc, emitted := [], streamError := none }
  | .eof :: _ => { acc := acc, emitted := [], streamError := none }
  | .canceled :: _ => { acc := acc, emitted := [], streamError := none }
  | .failure m :: _ =>
    { acc := acc, emitted := [], streamError := some ("stream error: " ++ m) }
  | .msg c :: rest =>
    let p := processChunk acc c
    if isTerminalChunk c then
      { acc := p.1, emitted := [p.2], streamError := none }
    else
      let r := clientLoop p.1 rest
      { r with emitted := p.2 :: r.emitted }

/-- What the handler does after the stream call, observable per turn. -/
structure ChatStreamOutcome where
  sse : List SSE
  traceStatus : String
  assistantSaved : Option (String × Int)
  budgetApplied : Option (Int × ℚ)
  postSnapshotRecorded : Bool
deriving DecidableEq, Repr

/-- The consumption stage of `LLMHandler.ChatStream`: when the stream
call returns a non-nil error the handler emits one synthetic `error`
event and returns — the error branch never calls `EndTrace`, so the
trace stays `running` (the returned errors are wrapped strings, never
`context.Canceled` itself, so the supervisor-derived messages are
unreachable and the event carries the error's own text); when the call
returns nil the handler saves the assistant message, updates the
budget, records the `post_llm` snapshot, ends the trace `completed`,
and emits `done`. -/
def chatStreamRun (events : List RecvResult) : ChatStreamOutcome :=
  let r := clientLoop initialAcc events
  match r.streamError with
  | some m =>
    { sse := r.emitted ++ [SSE.err m]
      traceStatus := "running"
      assistantSaved := none
      budgetApplied := none
      postSnapshotRecorded := false }
  | none =>
    { sse := r.emitted ++ [SSE.done]
      traceStatus := "completed"
      assistantSaved := some (r.acc.fullContent, r.acc.totalTokens)
      budgetApplied := some (r.acc.totalTokens, r.acc.totalCost)
      postSnapshotRecorded := true }

/-- C1 counterexample: a stream whose upstream delivers an `error`
chunk ends with the handler closing the trace as `completed` and
emitting `{"type":"done"}` after the error event (the client swallows
the error chunk and returns nil); a supervisor/client cancellation
(gRPC `Cancelled`) likewise completes the trace and emits `done` — the
trace is never closed as `failed` on either path. -/
theorem chatStream_abnormal_end_cx :
    (chatStreamRun [RecvResult.msg (Chunk.errorChunk "upstream failed")]).traceStatus
        = "completed" ∧
    (chatStreamRun [RecvResult.msg (Chunk.errorChunk "upstream failed")]).sse =
      [SSE.err "upstream failed", SSE.done] ∧
    (chatStreamRun [RecvResult.canceled]).traceStatus = "completed" ∧
    SSE.done ∈ (chatStreamRun [RecvResult.canceled]).sse := by
  refine ⟨rfl, rfl, rfl, by decide⟩

/-- The callback never writes a `done` event; `done` comes only from
the handler's success tail. -/
lemma clientLoop_no_done :
    ∀ (events : List RecvResult) (acc : StreamAcc),
      SSE.done ∉ (clientLoop acc events).emitted := by
  intro events
  induction events with
  | nil => intro acc; simp [clientLoop]
  | cons e rest ih =>
    intro acc
    cases e with
    | eof => simp [clientLoop]
    | canceled => simp [clientLoop]
    | failure m => simp [clientLoop]
    | msg c =>
      cases c <;> simp [clientLoop, processChunk, isTerminalChunk, ih]

/-- C1 amended: when `ExecuteChatStream` returns a non-nil error the
handler appends exactly one `error` SSE event carrying that error's
text, emits no `done`, skips the assistant message and the budget
update, and leaves the trace `running` (it is not closed as `failed`);
when the client returns nil — including after an upstream `error` chunk
and after a gRPC `Cancelled` from the supervisor or the client — the
handler completes the turn: the trace is closed `completed` and the
stream ends with `done`. -/
theorem chatStream_abnormal_end_amended (events : List RecvResult) :
    (∀ m, (clientLoop initialAcc events).streamError = some m →
      (chatStreamRun events).sse =
        (clientLoop initialAcc events).emitted ++ [SSE.err m] ∧
      (chatStreamRun events).sse.getLast? = some (SSE.err m) ∧
      SSE.done ∉ (chatStreamRun events).sse ∧
      (chatStreamRun events).traceStatus = "running" ∧
      (chatStreamRun events).assistantSaved = none ∧
      (chatStreamRun events).budgetApplied = none) ∧
    ((clientLoop initialAcc events).streamError = none →
      (chatStreamRun events).traceStatus = "completed" ∧
      (chatStreamRun events).sse.getLast? = some SSE.done ∧
      (chatStreamRun events).postSnapshotRecorded = true) := by
  constructor
  · intro m hm
    have hdone := clientLoop_no_done events initialAcc
    simp [chatStreamRun, hm, hdone]
  · intro hm
    simp [chatStreamRun, hm]

/-- Witness for C1 amended: a receive failure leaves the trace running
and ends the SSE stream with the error event. -/
theorem chatStream_abnormal_end_witness :
    (chatStreamRun [RecvResult.failure "boom"]).traceStatus = "running" ∧
    (chatStreamRun [RecvResult.failure "boom"]).sse.getLast? =
      some (SSE.err ("stream error: " ++ "boom")) :=
  ⟨((chatStream_abnormal_end_amended [RecvResult.failure "boom"]).1
      ("stream error: " ++ "boom") rfl).2.2.2.1,
   ((chatStream_abnormal_end_amended [RecvResult.failure "boom"]).1
      ("stream error: " ++ "boom") rfl).2.1⟩

end NexusAgent
